import Mathlib

/-!
Verification of the slide-classification and template-mapping engine of the
AIStoryteller backend.  The Python source (`app.py` / `app_v2.py`; the
classifier, keyword tables and helpers are textually identical in both
files) is shallowly embedded:

* Python strings become `List Char` (`Str`); Python floats become `ℚ`
  (the constants `1.3`, `0.35`, `0.5`, `0.4` are exact rationals, and the
  code only ever compares these quantities, so order in `ℚ` is faithful);
* Python dictionaries with string keys become association lists, dicts with
  a fixed field set become structures; `None` becomes `Option.none`;
* `str.lower`, `str.upper`, whitespace trimming and the regex classes
  `\d` / `[a-zA-Z]` / `\s` are modelled on their ASCII behaviour — every
  keyword and marker the code matches against is ASCII or caseless, so this
  agrees with CPython on the strings the code manipulates;
* `str.splitlines` is modelled for the line terminators `\n`, `\r`,
  `\r\n` (the code never produces the rarer terminators).
-/

abbrev Str := List Char

/-- ASCII/C0 whitespace, the characters matched by Python `str.strip()`
and by the regex class `\s` on ASCII text. -/
def pyIsSpace (c : Char) : Bool :=
  c = ' ' || c = '\t' || c = '\n' || c = '\r' || c = '\x0b' || c = '\x0c'

/-- Python `str.strip()`. -/
def pyStrip (l : Str) : Str :=
  ((l.dropWhile pyIsSpace).reverse.dropWhile pyIsSpace).reverse

/-- Python `str.lower()` (ASCII case mapping). -/
def pyLower (l : Str) : Str := l.map Char.toLower

/-- Python `str.upper()` (ASCII case mapping). -/
def pyUpper (l : Str) : Str := l.map Char.toUpper

/-- Python `str.splitlines()` for the terminators `\n`, `\r`, `\r\n`. -/
def pySplitlines : Str → List Str
  | [] => []
  | '\n' :: cs => [] :: pySplitlines cs
  | '\r' :: '\n' :: cs => [] :: pySplitlines cs
  | '\r' :: cs => [] :: pySplitlines cs
  | c :: cs =>
    match pySplitlines cs with
    | [] => [[c]]
    | l :: ls => (c :: l) :: ls

/-- Python substring test `needle in hay`. -/
def pyIn (needle : Str) : Str → Bool
  | [] => needle.isEmpty
  | c :: rest => needle.isPrefixOf (c :: rest) || pyIn needle rest

/-- Python `str.split('\n')`. -/
def pySplitNl : Str → List Str
  | [] => [[]]
  | c :: cs =>
    if c = '\n' then [] :: pySplitNl cs
    else
      match pySplitNl cs with
      | [] => [[c]]
      | l :: ls => (c :: l) :: ls

/-- Python `x or ""` on an optional string (`None` and `""` are falsy). -/
def pyOrEmpty (o : Option Str) : Str :=
  match o with
  | none => []
  | some t => t

/-- Python truthiness of an optional string: `None` and `""` are falsy. -/
def pyTruthy (o : Option Str) : Bool :=
  match o with
  | none => false
  | some t => !t.isEmpty

/-- Python `" ".join(ls)`. -/
def pyJoinSpace (ls : List Str) : Str := List.intercalate [' '] ls

/-- The tuple of prefixes tested by `line.startswith((...))` in
`is_bullet_line`. -/
def DETECT_PREFIXES : List Str :=
  ["•".toList, "-".toList, "·".toList, "· ".toList, "●".toList,
   "○".toList, "▶".toList]

/-- The regex `^(\d+|[a-zA-Z])[\.\)]\s+` used by `is_bullet_line`. -/
def bulletMarkerMatch (l : Str) : Bool :=
  match l with
  | [] => false
  | c :: rest =>
    if c.isDigit then
      let ds := rest.takeWhile Char.isDigit
      match rest.drop ds.length with
      | p :: r2 =>
        (p = '.' || p = ')') &&
          (match r2 with | w :: _ => pyIsSpace w | [] => false)
      | [] => false
    else if c.isAlpha then
      match rest with
      | p :: r2 =>
        (p = '.' || p = ')') &&
          (match r2 with | w :: _ => pyIsSpace w | [] => false)
      | [] => false
    else false

/-- Source function `is_bullet_line`. -/
def is_bullet_line (line : Str) : Bool :=
  let l := pyStrip line
  if l.isEmpty then false
  else if DETECT_PREFIXES.any (fun p => p.isPrefixOf l) then true
  else bulletMarkerMatch l

/-- Keyword table `AGENDA_KEYWORDS`. -/
def AGENDA_KEYWORDS : List Str :=
  ["agenda".toList, "contents".toList, "outline".toList, "目录".toList,
   "议程".toList]

/-- Keyword table `ENDING_KEYWORDS`. -/
def ENDING_KEYWORDS : List Str :=
  ["thank you".toList, "thanks".toList, "q&a".toList, "questions".toList,
   "谢谢".toList, "结束".toList]

/-- Keyword table `SECTION_KEYWORDS`. -/
def SECTION_KEYWORDS : List Str :=
  ["section".toList, "part".toList, "chapter".toList, "模块".toList,
   "篇".toList, "part ".toList]

/-- Geometry of a normalized shape (the `geometry` sub-dict). -/
structure Geom where
  left_emu : Int
  top_emu : Int
  width_emu : Int
  height_emu : Int
deriving DecidableEq, Repr

/-- A normalized shape dictionary as produced by `extract_ppt_structure`
and consumed by the classifier and the replacement generator. -/
structure Shape where
  index : Nat
  name : Option Str
  shape_type : Str
  geometry : Geom
  has_text_frame : Bool
  text : Option Str
deriving DecidableEq, Repr

/-- A normalized page dictionary (the fields read by `classify_slide`). -/
structure Slide where
  index : Nat
  layout_name : Str
  shapes : List Shape
deriving DecidableEq, Repr

/-- The `meta` dictionary built by `extract_ppt_structure`. -/
structure Meta where
  slide_count : Nat
  slide_width_emu : Int
  slide_height_emu : Int
deriving DecidableEq, Repr

/-- Membership test for `text_shapes`:
`s.get("has_text_frame") and s.get("text")` followed by
`if not s["text"].strip(): continue`. -/
def isTextShape (s : Shape) : Bool :=
  s.has_text_frame &&
    (match s.text with
     | some t => !t.isEmpty && !(pyStrip t).isEmpty
     | none => false)

/-- Membership test for `picture_shapes`:
`s.get("shape_type", "").upper() in ("PICTURE", "MEDIA")`. -/
def isPicShape (s : Shape) : Bool :=
  pyUpper s.shape_type = "PICTURE".toList ||
    pyUpper s.shape_type = "MEDIA".toList

/-- The stripped text `txt` of a text shape. -/
def shapeTxt (s : Shape) : Str := pyStrip (pyOrEmpty s.text)

/-- The non-empty physical lines of a text shape's stripped text. -/
def linesOf (s : Shape) : List Str :=
  (pySplitlines (shapeTxt s)).filter (fun ln => !(pyStrip ln).isEmpty)

/-- The score the classifier assigns to a shape while hunting for a title
candidate: `area`, multiplied by `1.3` when the shape's vertical centre
ratio `(top + height/2) / slide_h` is below `0.35`. -/
def shapeScore (slide_h : ℚ) (s : Shape) : ℚ :=
  let top : ℚ := (s.geometry.top_emu : ℚ)
  let height : ℚ := (s.geometry.height_emu : ℚ)
  let yCenter : ℚ := (top + height / 2) / slide_h
  let area : ℚ := (s.geometry.width_emu : ℚ) * height
  if yCenter < 7 / 20 then area * (13 / 10) else area

/-- One iteration of the title-candidate loop of `classify_slide`:
update the running `(title_candidate, title_score)` pair when
`score > title_score and 0 < len(text) <= 60`. -/
def titleStep (slide_h : ℚ) (acc : Option Str × ℚ) (s : Shape) :
    Option Str × ℚ :=
  let text := pyStrip (pyOrEmpty s.text)
  let score := shapeScore slide_h s
  if acc.2 < score ∧ 0 < text.length ∧ text.length ≤ 60 then (some text, score)
  else acc

/-- The title-candidate loop of `classify_slide`, started from
`(None, -1.0)`. -/
def titleCandidate (slide_h : ℚ) (text_shapes : List Shape) : Option Str :=
  (text_shapes.foldl (titleStep slide_h) (none, -1)).1

/-- Source function `classify_slide` (identical in `app.py` and
`app_v2.py`).  The nested rule `if index == 0: if candidate and ...` is
flattened into a single conjunction, which is equivalent because the outer
`if` has no `else` and no other statement in its body. -/
def classify_slide (sl : Slide) (meta : Meta) : String :=
  let layout_name := pyLower sl.layout_name
  let slide_h : ℚ :=
    if meta.slide_height_emu = 0 then 1 else (meta.slide_height_emu : ℚ)
  let text_shapes := sl.shapes.filter isTextShape
  let picture_shapes := sl.shapes.filter isPicShape
  let total_text_len := (text_shapes.map (fun s => (shapeTxt s).length)).sum
  let total_lines := (text_shapes.map (fun s => (linesOf s).length)).sum
  let bullet_lines :=
    (text_shapes.map (fun s => (linesOf s).countP is_bullet_line)).sum
  let bulletRat : ℚ :=
    if 0 < total_lines then (bullet_lines : ℚ) / (total_lines : ℚ) else 0
  let title_candidate := titleCandidate slide_h text_shapes
  let all_text :=
    pyLower (pyJoinSpace (text_shapes.map (fun s => pyOrEmpty s.text)))
  if pyIn "title".toList layout_name ∧
      ¬ pyIn "agenda".toList layout_name then "title"
  else if pyIn "agenda".toList layout_name ∨
      pyIn "目录".toList layout_name then "agenda"
  else if sl.index = 0 ∧ pyTruthy title_candidate ∧
      text_shapes.length ≤ 3 then "title"
  else if text_shapes.length ≤ 2 ∧ total_text_len ≤ 80 ∧
      pyTruthy title_candidate then "title"
  else if AGENDA_KEYWORDS.any (fun k => pyIn k all_text) then "agenda"
  else if 1 / 2 ≤ bulletRat ∧
      ["agenda".toList, "目录".toList, "contents".toList].any
        (fun k => pyIn k all_text) then "agenda"
  else if text_shapes.length ≤ 2 ∧ total_text_len ≤ 60 ∧
      SECTION_KEYWORDS.any
        (fun k => pyIn k (pyLower (pyOrEmpty title_candidate))) then
    "section"
  else if ENDING_KEYWORDS.any (fun k => pyIn k all_text) then "ending"
  else if ¬ picture_shapes.isEmpty ∧ total_text_len ≤ 120 then
    "content_image"
  else if 2 / 5 ≤ bulletRat then "content_bullets"
  else if 0 < total_text_len then "content"
  else "other"

/-- The closed set of labels the classifier may emit. -/
def SLIDE_LABELS : List String :=
  ["title", "agenda", "section", "content_bullets", "content_image",
   "content", "ending", "other"]

/-- Source function `safe_int`: `int(value)` with default `0` on failure.  A raw value is
`some n` when it coerces to the integer `n` and `none` when `int(...)`
would raise. -/
def safe_int (v : Option Int) : Int :=
  match v with
  | none => 0
  | some n => n

/-- A raw shape as the document reader exposes it to the normalizer. -/
structure RawShape where
  left : Option Int
  top : Option Int
  width : Option Int
  height : Option Int
  name : Option Str
  shape_type_str : Str
  has_text_frame : Bool
  text : Str
deriving DecidableEq, Repr

/-- A raw page as the document reader exposes it. -/
structure RawSlide where
  layout_name : Str
  shapes : List RawShape
deriving DecidableEq, Repr

/-- A raw document as the document reader exposes it. -/
structure RawDoc where
  slide_width : Option Int
  slide_height : Option Int
  slides : List RawSlide
deriving DecidableEq, Repr

/-- The per-shape body of `extract_ppt_structure`'s inner loop. -/
def mkShape (shape_idx : Nat) (r : RawShape) : Shape :=
  { index := shape_idx
    name := r.name
    shape_type := r.shape_type_str
    geometry :=
      { left_emu := safe_int r.left
        top_emu := safe_int r.top
        width_emu := safe_int r.width
        height_emu := safe_int r.height }
    has_text_frame := r.has_text_frame
    text :=
      if r.has_text_frame then
        (if (pyStrip r.text).isEmpty then none else some (pyStrip r.text))
      else none }

/-- Loop `for shape_idx, shape in enumerate(slide.shapes)`. -/
def extractShapesAux : Nat → List RawShape → List Shape
  | _, [] => []
  | i, r :: rest => mkShape i r :: extractShapesAux (i + 1) rest

/-- A classified page of the normalized tree. -/
structure Page where
  index : Nat
  layout_name : Str
  shapes : List Shape
  slide_type : String
deriving DecidableEq, Repr

/-- The per-slide body of `extract_ppt_structure`'s outer loop. -/
def mkPage (meta : Meta) (slide_idx : Nat) (r : RawSlide) : Page :=
  let sl : Slide :=
    { index := slide_idx
      layout_name := r.layout_name
      shapes := extractShapesAux 0 r.shapes }
  { index := sl.index
    layout_name := sl.layout_name
    shapes := sl.shapes
    slide_type := classify_slide sl meta }

/-- Loop `for slide_idx, slide in enumerate(prs.slides)`. -/
def extractPagesAux (meta : Meta) : Nat → List RawSlide → List Page
  | _, [] => []
  | i, r :: rest => mkPage meta i r :: extractPagesAux meta (i + 1) rest

/-- Source function `extract_ppt_structure`: normalize a raw document into
`(meta, slides)`. -/
def extract_ppt_structure (doc : RawDoc) : Meta × List Page :=
  let meta : Meta :=
    { slide_count := doc.slides.length
      slide_width_emu := safe_int doc.slide_width
      slide_height_emu := safe_int doc.slide_height }
  (meta, extractPagesAux meta 0 doc.slides)

/-- The fixed `template_map` of `match_template_slide`. -/
def template_map (slide_type : String) : List Nat :=
  if slide_type = "title" then [0, 1, 4]
  else if slide_type = "agenda" then [6, 7]
  else if slide_type = "section" then [15, 16, 17]
  else if slide_type = "content_bullets" then [18, 19, 20]
  else if slide_type = "content_image" then [21, 22]
  else if slide_type = "content" then [18, 19, 20]
  else if slide_type = "ending" then [31, 32]
  else if slide_type = "other" then [18]
  else [18]

/-- Source function `match_template_slide` from `app_v2.py`.  Its
`candidates[idx]` is written
with `List.getD`; the pools of `template_map` are all non-empty and
`idx = slide_index % len(candidates) < len(candidates)`, so the default is
never taken. -/
def match_template_slide (slide_type : String) (slide_index : Nat)
    (total_slides : Nat) : Nat :=
  let candidates := template_map slide_type
  if slide_index = 0 ∧ slide_type = "title" then candidates.getD 0 18
  else candidates.getD (slide_index % candidates.length) 18

/-- A template shape's metadata, as read from the inventory JSON. -/
structure TShape where
  placeholder_type : Option String
deriving DecidableEq, Repr

/-- A paragraph spec of the replacement JSON.  The optional fields model
dict keys that are only present when the generator sets them. -/
structure Para where
  text : Str
  bold : Option Bool
  alignment : Option String
  bullet : Option Bool
  level : Option Nat
deriving DecidableEq, Repr

/-- A per-shape replacement instruction. -/
structure Instr where
  paragraphs : List Para
deriving DecidableEq, Repr

/-- Split a character list on `-`, as Python `k.split("-")`. -/
def splitDash : Str → List Str
  | [] => [[]]
  | c :: cs =>
    if c = '-' then [] :: splitDash cs
    else
      match splitDash cs with
      | [] => [[c]]
      | l :: ls => (c :: l) :: ls

/-- Parse a non-empty all-digit string as a natural number. -/
def pyDigits? (l : Str) : Option Nat :=
  if !l.isEmpty && l.all Char.isDigit then
    some (l.foldl (fun acc c => acc * 10 + (c.toNat - 48)) 0)
  else none

/-- The numeric suffix used as sort key:
`int(k.split("-")[1])`.  Malformed keys (on which CPython would raise)
are given the defensive default `0`; every key the inventory tool emits
has the form `shape-{index}`. -/
def keyNum (k : String) : Nat :=
  match (splitDash k.toList).drop 1 with
  | [] => 0
  | d :: _ => (pyDigits? d).getD 0

/-- Stable insertion of `a` after all elements `b` with `le b a`. -/
def insertStable (le : String → String → Bool) (a : String) :
    List String → List String
  | [] => [a]
  | b :: bs =>
    if le b a then b :: insertStable le a bs else a :: b :: bs

/-- Python `sorted(keys, key=lambda k: int(k.split("-")[1]))` — a stable
ascending sort by numeric suffix. -/
def sortKeys (template_shapes : List (String × TShape)) : List String :=
  (template_shapes.map Prod.fst).foldl
    (fun acc k => insertStable (fun a b => keyNum a ≤ keyNum b) k acc) []

/-- The call `re.sub(r'^[•\-●○▶]\s*', '', line)`. -/
def stripBulletGlyph (l : Str) : Str :=
  match l with
  | [] => []
  | c :: rest =>
    if c = '•' ∨ c = '-' ∨ c = '●' ∨ c = '○' ∨ c = '▶' then
      rest.dropWhile pyIsSpace
    else l

/-- The call `re.sub(r'^\d+[\.\)]\s*', '', line)`. -/
def stripNumMarker (l : Str) : Str :=
  let ds := l.takeWhile Char.isDigit
  if ds.isEmpty then l
  else
    match l.drop ds.length with
    | p :: rest => if p = '.' ∨ p = ')' then rest.dropWhile pyIsSpace else l
    | [] => l

/-- The call `re.sub(r'^[a-zA-Z][\.\)]\s*', '', line)`. -/
def stripAlphaMarker (l : Str) : Str :=
  match l with
  | c :: p :: rest =>
    if c.isAlpha ∧ (p = '.' ∨ p = ')') then rest.dropWhile pyIsSpace else l
  | _ => l

/-- The `clean_line` computation of `generate_replacement_json`: the three
`re.sub` calls applied in source order. -/
def cleanLine (l : Str) : Str :=
  stripAlphaMarker (stripNumMarker (stripBulletGlyph l))

/-- The trimmed non-empty lines of an assigned text:
`[ln.strip() for ln in text.split('\n') if ln.strip()]`. -/
def textLines (text : Str) : List Str :=
  ((pySplitNl text).map pyStrip).filter (fun ln => !ln.isEmpty)

/-- The per-(text, shape) body of `generate_replacement_json`'s inner
loop: decide `is_title` and `is_bullet_list`, then build the paragraph
list. -/
def mkShapeInstr (i : Nat) (text : Str) (template_shape : TShape) : Instr :=
  let is_title : Bool := i == 0 ||
    (match template_shape.placeholder_type with
     | some p => p == "TITLE" || p == "CENTER_TITLE"
     | none => false)
  let lines := textLines text
  let is_bullet_list : Bool := decide (1 < lines.length) || lines.any is_bullet_line
  if is_bullet_list && !is_title then
    { paragraphs :=
        lines.map (fun line =>
          { text := cleanLine line
            bold := none
            alignment := none
            bullet := some true
            level := some 0 }) }
  else
    { paragraphs :=
        [{ text := text
           bold := if is_title then some true else none
           alignment :=
             if is_title && (template_shape.placeholder_type == some "CENTER_TITLE")
             then some "CENTER" else none
           bullet := none
           level := none }] }

/-- The non-empty stripped texts of a user slide's text shapes, in shape
order. -/
def extractTexts (sl : Slide) : List Str :=
  sl.shapes.filterMap (fun sh =>
    match sh.text with
    | some t =>
      if sh.has_text_frame ∧ ¬ t.isEmpty ∧ ¬ (pyStrip t).isEmpty
      then some (pyStrip t) else none
    | none => none)

/-- The key `f"slide-{slide_idx}"`. -/
def slideKey (slide_idx : Nat) : String := "slide-" ++ toString slide_idx

/-- The inner assignment loop: walk the sorted shape keys with running
index `i`, `break` as soon as `i >= len(user_texts)`. -/
def assignLoop (template_shapes : List (String × TShape))
    (user_texts : List Str) : Nat → List String → List (String × Instr)
  | _, [] => []
  | i, sk :: sks =>
    match user_texts.get? i with
    | none => []
    | some text =>
      (sk, mkShapeInstr i text
        ((template_shapes.lookup sk).getD { placeholder_type := none })) ::
        assignLoop template_shapes user_texts (i + 1) sks

/-- The per-slide body of `generate_replacement_json`'s outer loop.  Note
`replacement[slide_key] = {}` runs before either skip, so a skipped page
still contributes an entry with an empty shape map. -/
def pageEntry (slide_idx : Nat) (user_slide : Slide)
    (template_inventory : List (String × List (String × TShape))) :
    String × List (String × Instr) :=
  let slide_key := slideKey slide_idx
  match template_inventory.lookup slide_key with
  | none => (slide_key, [])
  | some template_shapes =>
    let user_texts := extractTexts user_slide
    if user_texts.isEmpty then (slide_key, [])
    else
      (slide_key,
        assignLoop template_shapes user_texts 0 (sortKeys template_shapes))

/-- Loop `for slide_idx, user_slide in enumerate(user_slides)`. -/
def generateAux (template_inventory : List (String × List (String × TShape))) :
    Nat → List Slide → List (String × List (String × Instr))
  | _, [] => []
  | i, sl :: rest =>
    pageEntry i sl template_inventory :: generateAux template_inventory (i + 1) rest

/-- Source function `generate_replacement_json` from `app_v2.py`. -/
def generate_replacement_json (user_slides : List Slide)
    (template_inventory : List (String × List (String × TShape))) :
    List (String × List (String × Instr)) :=
  generateAux template_inventory 0 user_slides

/-- Eligibility of a shape for the title-candidate search, as the spec
words it: trimmed text length in `(0, 60]`. -/
def eligibleShape (s : Shape) : Bool :=
  decide (0 < (pyStrip (pyOrEmpty s.text)).length) &&
    decide ((pyStrip (pyOrEmpty s.text)).length ≤ 60)

/-- The spec's own wording of the score: geometric area `width × height`,
multiplied by `1.3` when the shape's vertical centre
`(top + height/2) / deck_height` lies above the `0.35` line (i.e. the
ratio is below `0.35`). -/
def specShapeScore (slide_h : ℚ) (s : Shape) : ℚ :=
  ((s.geometry.width_emu : ℚ) * (s.geometry.height_emu : ℚ)) *
    (if ((s.geometry.top_emu : ℚ) + (s.geometry.height_emu : ℚ) / 2) / slide_h
        < 7 / 20
     then 13 / 10 else 1)

/-- The spec's wording of the title-candidate choice, for comparison with
the code: the candidate is the trimmed text of the shape with the highest
score among eligible shapes, ties keeping the first shape in shape
order. -/
def specTitleCandidate (slide_h : ℚ) (text_shapes : List Shape) :
    Option Str :=
  let es := text_shapes.filter eligibleShape
  (es.find? (fun s =>
      es.all (fun t =>
        decide (specShapeScore slide_h t ≤ specShapeScore slide_h s)))).map
    (fun s => pyStrip (pyOrEmpty s.text))

/-- Default shape used with positional `List.getD`. -/
def dShape : Shape :=
  { index := 0, name := none, shape_type := [],
    geometry := { left_emu := 0, top_emu := 0, width_emu := 0, height_emu := 0 },
    has_text_frame := false, text := none }

/-- Default page used with positional `List.getD`. -/
def dPage : Page :=
  { index := 0, layout_name := [], shapes := [], slide_type := "" }

/-- Default slide used with positional `List.getD`. -/
def dSlide : Slide := { index := 0, layout_name := [], shapes := [] }

/-- Default replacement entry used with positional `List.getD`. -/
def dEntry : String × List (String × Instr) := ("", [])

/-- Default instruction pair used with positional `List.getD`. -/
def dInstr : String × Instr := ("", { paragraphs := [] })

/-- Default template shape metadata. -/
def dTShape : TShape := { placeholder_type := none }

/-- Trigger of the first `re.sub` of `clean_line`: the line begins with a
glyph from the stripping set. -/
def hasLeadingGlyph (l : Str) : Bool :=
  match l with
  | c :: _ => c == '•' || c == '-' || c == '●' || c == '○' || c == '▶'
  | [] => false

/-- Trigger of the second `re.sub` of `clean_line`: the line begins with
one or more digits followed by `.` or `)`. -/
def hasLeadingNumMarker (l : Str) : Bool :=
  let ds := l.takeWhile Char.isDigit
  !ds.isEmpty &&
    (match l.drop ds.length with
     | p :: _ => p == '.' || p == ')'
     | [] => false)

/-- Trigger of the third `re.sub` of `clean_line`: the line begins with a
letter followed by `.` or `)`. -/
def hasLeadingAlphaMarker (l : Str) : Bool :=
  match l with
  | c :: p :: _ => c.isAlpha && (p == '.' || p == ')')
  | _ => false

/-- The line begins with some marker that `clean_line` strips. -/
def hasLeadingMarker (l : Str) : Bool :=
  hasLeadingGlyph l || hasLeadingNumMarker l || hasLeadingAlphaMarker l

/-- A raw geometry value is non-negative whenever it coerces to an
integer. -/
def rawValNonneg (v : Option Int) : Prop :=
  match v with
  | none => True
  | some n => 0 ≤ n

instance (v : Option Int) : Decidable (rawValNonneg v) := by
  unfold rawValNonneg
  cases v
  · exact inferInstanceAs (Decidable True)
  · exact inferInstanceAs (Decidable (0 ≤ _))

/-- A raw document with a shape dragged partly off the page: its `left`
coordinate coerces to `-1`. -/
def rawNegDoc : RawDoc :=
  { slide_width := some 9144000
    slide_height := some 6858000
    slides :=
      [{ layout_name := "Blank".toList
         shapes :=
           [{ left := some (-1), top := some 0, width := some 10,
              height := some 10, name := none,
              shape_type_str := "AUTO_SHAPE".toList,
              has_text_frame := false, text := [] }] }] }

/-- A raw document whose every coercible geometry value is non-negative. -/
def rawGoodDoc : RawDoc :=
  { slide_width := some 9144000
    slide_height := some 6858000
    slides :=
      [{ layout_name := "Blank".toList
         shapes :=
           [{ left := some 100, top := none, width := some 10,
              height := some 10, name := none,
              shape_type_str := "TEXT_BOX".toList,
              has_text_frame := true, text := "hi".toList }] }] }

/-- A text shape with the given text and a fixed geometry. -/
def mkTextShape (t : String) : Shape :=
  { index := 0, name := none, shape_type := "TEXT_BOX".toList,
    geometry := { left_emu := 0, top_emu := 0, width_emu := 100,
                  height_emu := 100 },
    has_text_frame := true, text := some t.toList }

/-- A default metadata record for concrete runs. -/
def m0 : Meta :=
  { slide_count := 1, slide_width_emu := 9144000,
    slide_height_emu := 6858000 }

theorem pyOrEmpty_of_truthy_false (o : Option Str) (h : pyTruthy o = false) :
    pyOrEmpty o = [] := by
  cases o with
  | none => rfl
  | some t =>
    simp [pyTruthy] at h
    simpa [pyOrEmpty] using h

/-- C6: rule precedence in the classifier — a page whose layout name
contains "title" (case-insensitively) and not "agenda" classifies as
`title`, whatever its shapes and text contain (in particular even when an
ending/closing keyword occurs in the text): the first rule of the cascade
fires and all later rules are unreachable. -/
theorem classify_slide_title_layout_precedence (sl : Slide) (meta : Meta)
    (h1 : pyIn "title".toList (pyLower sl.layout_name) = true)
    (h2 : pyIn "agenda".toList (pyLower sl.layout_name) = false) :
    classify_slide sl meta = "title" := by
  simp only [classify_slide]
  rw [if_pos ⟨h1, by simp only [Bool.not_eq_true]; exact h2⟩]

/-- Witness for C6 at a concrete page whose text holds the ending keyword
"thank you" and whose layout name is "Title Slide". -/
theorem classify_slide_title_layout_precedence_witness :
    pyIn "thank you".toList
        (pyLower (pyJoinSpace [pyOrEmpty (mkTextShape "Thank you!").text]))
        = true ∧
    classify_slide
      { index := 1, layout_name := "Title Slide".toList,
        shapes := [mkTextShape "Thank you!"] } m0 = "title" :=
  ⟨by decide,
   classify_slide_title_layout_precedence _ _ (by decide) (by decide)⟩

theorem str_ite_mem {c : Prop} {inst : Decidable c} {a b : String}
    {S : List String} (ha : a ∈ S) (hb : b ∈ S) :
    (@ite _ c inst a b) ∈ S := by
  rcases inst with h | h
  · simpa [if_neg h] using hb
  · simpa [if_pos h] using ha

/-- C1 (counterexample): a page with zero shapes whose layout name
contains "title" classifies as `title`, not as the lowest-information
label `other` — the layout-name rule precedes the shape inspection. -/
theorem classify_slide_zero_shapes_not_other :
    classify_slide { index := 0, layout_name := "Title Slide".toList,
                     shapes := [] } m0 = "title" ∧
    ("title" : String) ≠ "other" := by
  constructor
  · decide
  · decide

/-- C1 (amended): classification is total — for every normalized page and
every metadata record `classify_slide` returns exactly one label of the
fixed 8-element set; and a page with zero shapes, or more generally with
no text-bearing and no picture/media shapes, classifies to `other`
provided its layout name contains none of the layout keywords "title",
"agenda", "目录" that earlier rules match. -/
theorem classify_slide_total :
    (∀ (sl : Slide) (meta : Meta), classify_slide sl meta ∈ SLIDE_LABELS) ∧
    (∀ (sl : Slide) (meta : Meta),
      pyIn "title".toList (pyLower sl.layout_name) = false →
      pyIn "agenda".toList (pyLower sl.layout_name) = false →
      pyIn "目录".toList (pyLower sl.layout_name) = false →
      (∀ s ∈ sl.shapes, isTextShape s = false) →
      (∀ s ∈ sl.shapes, isPicShape s = false) →
      classify_slide sl meta = "other") := by
  constructor
  · intro sl meta
    simp only [classify_slide]
    apply str_ite_mem (by decide)
    apply str_ite_mem (by decide)
    apply str_ite_mem (by decide)
    apply str_ite_mem (by decide)
    apply str_ite_mem (by decide)
    apply str_ite_mem (by decide)
    apply str_ite_mem (by decide)
    apply str_ite_mem (by decide)
    apply str_ite_mem (by decide)
    apply str_ite_mem (by decide)
    apply str_ite_mem (by decide)
    decide
  · intro sl meta h1 h2 h3 htext hpic
    have ht : sl.shapes.filter isTextShape = [] :=
      List.filter_eq_nil_iff.mpr (by intro a ha; simp [htext a ha])
    have hp : sl.shapes.filter isPicShape = [] :=
      List.filter_eq_nil_iff.mpr (by intro a ha; simp [hpic a ha])
    have h1' : pyIn ['t', 'i', 't', 'l', 'e'] (pyLower sl.layout_name)
        = false := h1
    have h2' : pyIn ['a', 'g', 'e', 'n', 'd', 'a'] (pyLower sl.layout_name)
        = false := h2
    have h3' : pyIn ['\u76ee', '\u5f55'] (pyLower sl.layout_name)
        = false := h3
    simp only [classify_slide, ht, hp]
    rw [if_neg (by simp [h1'])]
    rw [if_neg (by simp [h2', h3'])]
    rw [if_neg (by simp [titleCandidate, pyTruthy])]
    rw [if_neg (by simp [titleCandidate, pyTruthy])]
    rw [if_neg (by decide)]
    rw [if_neg (by norm_num)]
    rw [if_neg (by simp only [titleCandidate, List.foldl, pyOrEmpty,
      pyLower, List.map_nil]; decide)]
    rw [if_neg (by decide)]
    rw [if_neg (by decide)]
    rw [if_neg (by norm_num)]
    rw [if_neg (by decide)]

/-- Witness for C1 on a concrete empty page with a neutral layout name. -/
theorem classify_slide_total_witness :
    classify_slide { index := 0, layout_name := "Blank".toList,
                     shapes := [] } m0 ∈ SLIDE_LABELS ∧
    classify_slide { index := 0, layout_name := "Blank".toList,
                     shapes := [] } m0 = "other" :=
  ⟨classify_slide_total.1 _ _,
   classify_slide_total.2 _ _ (by decide) (by decide) (by decide)
     (by intro s hs; simp at hs) (by intro s hs; simp at hs)⟩

theorem str_ite_ne {c : Prop} {inst : Decidable c} {a b x : String}
    (ha : a ≠ x) (hb : b ≠ x) : (@ite _ c inst a b) ≠ x := by
  rcases inst with h | h
  · simpa [if_neg h] using hb
  · simpa [if_pos h] using ha

/-- C10: the `section` branch of the classifier is dead code — for every
page and every metadata record, `classify_slide` never returns
`"section"`: its result always lies in the 7-element label set without
`section`.  Reaching the section rule means the earlier small-page title
rule failed, which (under the section rule's own guards, total text length
at most 60 ≤ 80 and at most 2 text shapes) forces the title candidate to
be falsy, and then the keyword test against the empty string fails. -/
theorem classify_slide_never_section (sl : Slide) (meta : Meta) :
    classify_slide sl meta ∈
      ["title", "agenda", "content_bullets", "content_image", "content",
       "ending", "other"] := by
  simp only [classify_slide]
  apply str_ite_mem (by decide)
  apply str_ite_mem (by decide)
  apply str_ite_mem (by decide)
  rcases Decidable.em (((sl.shapes.filter isTextShape)).length ≤ 2 ∧
      ((sl.shapes.filter isTextShape).map (fun s => (shapeTxt s).length)).sum ≤ 80 ∧
      pyTruthy (titleCandidate
        (if meta.slide_height_emu = 0 then 1 else (meta.slide_height_emu : ℚ))
        (sl.shapes.filter isTextShape)) = true) with hd | hd
  · rw [if_pos hd]; decide
  · rw [if_neg hd]
    apply str_ite_mem (by decide)
    apply str_ite_mem (by decide)
    rw [if_neg]
    · apply str_ite_mem (by decide)
      apply str_ite_mem (by decide)
      apply str_ite_mem (by decide)
      apply str_ite_mem (by decide)
      decide
    · rintro ⟨hlen, hsum, hkw⟩
      have hcand : pyTruthy (titleCandidate
          (if meta.slide_height_emu = 0 then 1 else (meta.slide_height_emu : ℚ))
          (sl.shapes.filter isTextShape)) = false := by
        rcases Bool.eq_false_or_eq_true (pyTruthy (titleCandidate
            (if meta.slide_height_emu = 0 then 1 else (meta.slide_height_emu : ℚ))
            (sl.shapes.filter isTextShape))) with h | h
        · exact absurd ⟨hlen, by omega, h⟩ hd
        · exact h
      rw [pyOrEmpty_of_truthy_false _ hcand] at hkw
      revert hkw
      decide

/-- C2: the template-selection policy.  `match_template_slide` is a pure
function; for page 0 with label `title` it returns the first candidate of
the title pool (template 0), otherwise `candidates[page_index mod
len(candidates)]` over the label's pool (unmapped labels fall back to the
single default pool `[18]`).  Consequently each candidate of a label's
pool of size N is visited exactly twice over page indices `0..2N-1`, and
the agenda pool `[6, 7]` resolves pages 2 and 4 both to template 6. -/
theorem match_template_slide_policy :
    (∀ (st : String) (i total : Nat), ¬(i = 0 ∧ st = "title") →
      match_template_slide st i total =
        (template_map st).getD (i % (template_map st).length) 18) ∧
    (∀ total, match_template_slide "title" 0 total = 0) ∧
    (∀ (st : String) (total c : Nat), c ∈ template_map st →
      ((List.range (2 * (template_map st).length)).filter
        (fun i => match_template_slide st i total = c)).length = 2) ∧
    (∀ total, match_template_slide "agenda" 2 total = 6 ∧
      match_template_slide "agenda" 4 total = 6) := by
  refine ⟨?_, ?_, ?_, ?_⟩
  · intro st i total h
    simp [match_template_slide, h]
  · intro total
    rfl
  · intro st total c hc
    have htot : ∀ j, match_template_slide st j total =
        match_template_slide st j 0 := fun j => rfl
    by_cases h1 : st = "title"
    · subst h1; simp only [htot]
      simp [template_map] at hc
      rcases hc with h | h | h <;> subst h <;> decide
    by_cases h2 : st = "agenda"
    · subst h2; simp only [htot]
      simp [template_map] at hc
      rcases hc with h | h <;> subst h <;> decide
    by_cases h3 : st = "section"
    · subst h3; simp only [htot]
      simp [template_map] at hc
      rcases hc with h | h | h <;> subst h <;> decide
    by_cases h4 : st = "content_bullets"
    · subst h4; simp only [htot]
      simp [template_map] at hc
      rcases hc with h | h | h <;> subst h <;> decide
    by_cases h5 : st = "content_image"
    · subst h5; simp only [htot]
      simp [template_map] at hc
      rcases hc with h | h <;> subst h <;> decide
    by_cases h6 : st = "content"
    · subst h6; simp only [htot]
      simp [template_map] at hc
      rcases hc with h | h | h <;> subst h <;> decide
    by_cases h7 : st = "ending"
    · subst h7; simp only [htot]
      simp [template_map] at hc
      rcases hc with h | h <;> subst h <;> decide
    by_cases h8 : st = "other"
    · subst h8; simp only [htot]
      simp [template_map] at hc
      subst hc; decide
    · have hm : template_map st = [18] := by
        simp [template_map, h1, h2, h3, h4, h5, h6, h7, h8]
      rw [hm] at hc ⊢
      simp at hc
      subst hc
      have : ∀ j, match_template_slide st j total = 18 := by
        intro j
        simp [match_template_slide, hm, h1]
      simp [this]
  · intro total
    exact ⟨rfl, rfl⟩

/-- Witness for C2 at concrete labels and page indices. -/
theorem match_template_slide_policy_witness :
    match_template_slide "content" 5 9 =
      (template_map "content").getD (5 % (template_map "content").length) 18 ∧
    ((List.range (2 * (template_map "agenda").length)).filter
      (fun i => match_template_slide "agenda" i 7 = 6)).length = 2 ∧
    match_template_slide "agenda" 2 7 = 6 :=
  ⟨match_template_slide_policy.1 "content" 5 9 (by decide),
   match_template_slide_policy.2.2.1 "agenda" 7 6 (by decide),
   (match_template_slide_policy.2.2.2 7).1⟩

theorem generateAux_length (inv : List (String × List (String × TShape))) :
    ∀ (slides : List Slide) (i : Nat),
      (generateAux inv i slides).length = slides.length := by
  intro slides
  induction slides with
  | nil => intro i; rfl
  | cons s rest ih => intro i; simp [generateAux, ih]

theorem generateAux_getD (inv : List (String × List (String × TShape))) :
    ∀ (slides : List Slide) (i idx : Nat), idx < slides.length →
      (generateAux inv i slides).getD idx dEntry =
        pageEntry (i + idx) (slides.getD idx dSlide) inv := by
  intro slides
  induction slides with
  | nil => intro i idx h; simp at h
  | cons s rest ih =>
    intro i idx h
    cases idx with
    | zero => simp [generateAux]
    | succ k =>
      have hk : k < rest.length := by simpa using h
      have := ih (i + 1) k hk
      simpa [generateAux, Nat.add_assoc, Nat.add_comm 1 k] using this

theorem assignLoop_length (tsh : List (String × TShape)) (ts : List Str) :
    ∀ (sks : List String) (i : Nat),
      (assignLoop tsh ts i sks).length = min (ts.length - i) sks.length := by
  intro sks
  induction sks with
  | nil => intro i; simp [assignLoop]
  | cons sk rest ih =>
    intro i
    simp only [assignLoop]
    cases h : ts.get? i with
    | none =>
      have : ts.length ≤ i := List.get?_eq_none.mp h
      simp
      omega
    | some t =>
      have hi : i < ts.length := by
        rcases List.get?_eq_some.mp h with ⟨hlt, -⟩
        exact hlt
      simp [ih (i + 1)]
      omega

theorem assignLoop_getD (tsh : List (String × TShape)) (ts : List Str) :
    ∀ (sks : List String) (i j : Nat), j < (assignLoop tsh ts i sks).length →
      (assignLoop tsh ts i sks).getD j dInstr =
        (sks.getD j "",
         mkShapeInstr (i + j) (ts.getD (i + j) [])
           ((tsh.lookup (sks.getD j "")).getD dTShape)) := by
  intro sks
  induction sks with
  | nil => intro i j h; simp [assignLoop] at h
  | cons sk rest ih =>
    intro i j h
    simp only [assignLoop] at h ⊢
    cases hg : ts.get? i with
    | none => rw [hg] at h; simp at h
    | some t =>
      rw [hg] at h
      cases j with
      | zero =>
        have ht : ts[i]?.getD [] = t := by
          rw [show ts[i]? = ts.get? i from (List.get?_eq_getElem? ts i).symm, hg]
          rfl
        simp [ht, dTShape]
      | succ k =>
        have hk : k < (assignLoop tsh ts (i + 1) rest).length := by
          simpa using h
        have := ih (i + 1) k hk
        have harith : i + 1 + k = i + (k + 1) := by omega
        rw [harith] at this
        simpa using this

theorem pageEntry_none (idx : Nat) (sl : Slide)
    (inv : List (String × List (String × TShape)))
    (hlk : inv.lookup (slideKey idx) = none) :
    pageEntry idx sl inv = (slideKey idx, []) := by
  simp [pageEntry, hlk]

theorem pageEntry_some_empty (idx : Nat) (sl : Slide)
    (inv : List (String × List (String × TShape)))
    (tsh : List (String × TShape))
    (hlk : inv.lookup (slideKey idx) = some tsh)
    (he : (extractTexts sl).isEmpty = true) :
    pageEntry idx sl inv = (slideKey idx, []) := by
  simp [pageEntry, hlk, he]

theorem pageEntry_some (idx : Nat) (sl : Slide)
    (inv : List (String × List (String × TShape)))
    (tsh : List (String × TShape))
    (hlk : inv.lookup (slideKey idx) = some tsh)
    (he : (extractTexts sl).isEmpty = false) :
    pageEntry idx sl inv =
      (slideKey idx, assignLoop tsh (extractTexts sl) 0 (sortKeys tsh)) := by
  simp [pageEntry, hlk, he]

/-- C3: the replacement bound.  For every user-slide list and inventory,
the entry generated for user page `idx` sits under that page's own key
`slide-{idx}`; when the inventory has the page, the number of emitted
shape instructions never exceeds the page's inventory shape-key count nor
its own text count (it is exactly the minimum of the two when texts
exist), and the `j`-th instruction pairs the `j`-th inventory shape key
(sorted by numeric suffix) with the `j`-th text of the *same* page — so a
text of page P is never assigned to a shape key of a page Q ≠ P. -/
theorem generate_replacement_json_bound (user_slides : List Slide)
    (inv : List (String × List (String × TShape))) (idx : Nat)
    (h : idx < user_slides.length) :
    ((generate_replacement_json user_slides inv).getD idx dEntry).1 =
      slideKey idx ∧
    (∀ tshapes, inv.lookup (slideKey idx) = some tshapes →
      ((generate_replacement_json user_slides inv).getD idx dEntry).2.length
          ≤ (sortKeys tshapes).length ∧
      ((generate_replacement_json user_slides inv).getD idx dEntry).2.length
          ≤ (extractTexts (user_slides.getD idx dSlide)).length ∧
      (extractTexts (user_slides.getD idx dSlide) ≠ [] →
        ((generate_replacement_json user_slides inv).getD idx dEntry).2.length
          = min (extractTexts (user_slides.getD idx dSlide)).length
              (sortKeys tshapes).length) ∧
      (∀ j, j < ((generate_replacement_json user_slides inv).getD idx
          dEntry).2.length →
        ((generate_replacement_json user_slides inv).getD idx dEntry).2.getD
            j dInstr =
          ((sortKeys tshapes).getD j "",
           mkShapeInstr j
             ((extractTexts (user_slides.getD idx dSlide)).getD j [])
             ((tshapes.lookup ((sortKeys tshapes).getD j "")).getD
               dTShape)))) := by
  have hgen : (generate_replacement_json user_slides inv).getD idx dEntry =
      pageEntry idx (user_slides.getD idx dSlide) inv := by
    simpa [generate_replacement_json] using generateAux_getD inv user_slides 0 idx h
  rw [hgen]
  refine ⟨?_, ?_⟩
  · cases hlk : inv.lookup (slideKey idx) with
    | none => rw [pageEntry_none _ _ _ hlk]
    | some tshapes =>
      cases he : (extractTexts (user_slides.getD idx dSlide)).isEmpty with
      | true => rw [pageEntry_some_empty _ _ _ _ hlk he]
      | false => rw [pageEntry_some _ _ _ _ hlk he]
  · intro tsh htsh
    cases he : (extractTexts (user_slides.getD idx dSlide)).isEmpty with
    | true =>
      rw [pageEntry_some_empty _ _ _ _ htsh he]
      refine ⟨by simp, by simp, ?_, by intro j hj; simp at hj⟩
      intro hne
      exact absurd (List.isEmpty_iff.mp he) hne
    | false =>
      rw [pageEntry_some _ _ _ _ htsh he]
      have hlen := assignLoop_length tsh
        (extractTexts (user_slides.getD idx dSlide)) (sortKeys tsh) 0
      simp only [Nat.sub_zero] at hlen
      refine ⟨by simp only [hlen]; omega, by simp only [hlen]; omega,
        fun _ => hlen, ?_⟩
      intro j hj
      have := assignLoop_getD tsh
        (extractTexts (user_slides.getD idx dSlide)) (sortKeys tsh) 0 j hj
      simpa using this

/-- Text-shape fixture list used by concrete generator runs. -/
def wSlide : Slide :=
  { index := 0, layout_name := "x".toList,
    shapes := [mkTextShape "Heading", mkTextShape "· a\nb",
               mkTextShape "extra"] }

/-- Template-shape fixture for a single template page. -/
def wTsh : List (String × TShape) :=
  [("shape-1", { placeholder_type := none }),
   ("shape-0", { placeholder_type := some "TITLE" })]

/-- Inventory fixture with the single page key `slide-0`. -/
def wInv : List (String × List (String × TShape)) := [("slide-0", wTsh)]

/-- Witness for C3 on a concrete slide with three texts against a
two-shape template page. -/
theorem generate_replacement_json_bound_witness :
    ((generate_replacement_json [wSlide] wInv).getD 0 dEntry).1 =
      slideKey 0 ∧
    ((generate_replacement_json [wSlide] wInv).getD 0 dEntry).2.length
      ≤ (sortKeys wTsh).length ∧
    ((generate_replacement_json [wSlide] wInv).getD 0 dEntry).2.getD 1 dInstr
      = ((sortKeys wTsh).getD 1 "",
         mkShapeInstr 1 ((extractTexts ([wSlide].getD 0 dSlide)).getD 1 [])
           ((wTsh.lookup ((sortKeys wTsh).getD 1 "")).getD dTShape)) := by
  have hb := generate_replacement_json_bound [wSlide] wInv 0 (by decide)
  have hsome : wInv.lookup (slideKey 0) = some wTsh := by decide
  have hlen2 : ((generate_replacement_json [wSlide] wInv).getD 0
      dEntry).2.length = 2 := rfl
  exact ⟨hb.1, (hb.2 wTsh hsome).1,
    (hb.2 wTsh hsome).2.2.2 1 (by rw [hlen2]; omega)⟩

/-- C4 (counterexample): a page with no texts and no inventory entry is
not dropped from the output mapping — `replacement[slide_key] = {}` runs
before either skip, so the output still contains the page's key, mapped
to an empty shape map. -/
theorem generate_replacement_json_skipped_key_present :
    (generate_replacement_json [dSlide] []).lookup "slide-0" = some [] ∧
    ((generate_replacement_json [dSlide] []).lookup "slide-0").isSome
      = true := by
  constructor <;> decide

/-- C4 (amended): for every user page whose extracted text list is empty,
and for every user page whose key is absent from the inventory,
`generate_replacement_json` emits no shape instruction — the page's entry
is present but its shape map is empty. -/
theorem generate_replacement_json_skip (user_slides : List Slide)
    (inv : List (String × List (String × TShape))) (idx : Nat)
    (h : idx < user_slides.length)
    (hskip : extractTexts (user_slides.getD idx dSlide) = [] ∨
      inv.lookup (slideKey idx) = none) :
    (generate_replacement_json user_slides inv).getD idx dEntry =
      (slideKey idx, []) := by
  have hgen : (generate_replacement_json user_slides inv).getD idx dEntry =
      pageEntry idx (user_slides.getD idx dSlide) inv := by
    simpa [generate_replacement_json] using generateAux_getD inv user_slides 0 idx h
  rw [hgen]
  cases hlk : inv.lookup (slideKey idx) with
  | none => exact pageEntry_none _ _ _ hlk
  | some tshapes =>
    rcases hskip with hskip | hskip
    · exact pageEntry_some_empty _ _ _ _ hlk (List.isEmpty_iff.mpr hskip)
    · rw [hlk] at hskip; cases hskip

/-- Witness for C4: a page with no text against a present inventory key,
and a page against an absent inventory key. -/
theorem generate_replacement_json_skip_witness :
    (generate_replacement_json [dSlide] wInv).getD 0 dEntry =
      (slideKey 0, []) ∧
    (generate_replacement_json [dSlide] []).getD 0 dEntry =
      (slideKey 0, []) :=
  ⟨generate_replacement_json_skip [dSlide] wInv 0 (by decide)
     (Or.inl (by decide)),
   generate_replacement_json_skip [dSlide] [] 0 (by decide)
     (Or.inr (by decide))⟩

theorem mkShapeInstr_bullet (i : Nat) (text : Str) (tsh : TShape)
    (hi : i ≠ 0)
    (h1 : tsh.placeholder_type ≠ some "TITLE")
    (h2 : tsh.placeholder_type ≠ some "CENTER_TITLE")
    (hb : 1 < (textLines text).length ∨
      (textLines text).any is_bullet_line = true) :
    mkShapeInstr i text tsh =
      { paragraphs :=
          (textLines text).map (fun line =>
            { text := cleanLine line, bold := none, alignment := none,
              bullet := some true, level := some 0 }) } := by
  have htitle : (i == 0 ||
      (match tsh.placeholder_type with
       | some p => p == "TITLE" || p == "CENTER_TITLE"
       | none => false)) = false := by
    cases hpt : tsh.placeholder_type with
    | none => simp [hi]
    | some p =>
      have hp1 : p ≠ "TITLE" := fun hcon => h1 (by rw [hpt, hcon])
      have hp2 : p ≠ "CENTER_TITLE" := fun hcon => h2 (by rw [hpt, hcon])
      simp [hi, hp1, hp2]
  have hbull : (decide (1 < (textLines text).length) ||
      (textLines text).any is_bullet_line) = true := by
    rcases hb with h | h
    · simp [h]
    · simp [h]
  simp only [mkShapeInstr, htitle, hbull]
  simp

/-- C8 (counterexample): the stripping glyph set omits `·`, which the
bullet-detection set contains — the emitted paragraph for the line
`· a` keeps its leading `·` instead of the claimed stripped form `a`. -/
theorem generate_bullet_dot_not_stripped :
    ((generate_replacement_json [wSlide] wInv).getD 0 dEntry).2.getD 1 dInstr
      = ("shape-1",
         { paragraphs :=
             [{ text := "· a".toList, bold := none, alignment := none,
                bullet := some true, level := some 0 },
              { text := "b".toList, bold := none, alignment := none,
                bullet := some true, level := some 0 }] }) ∧
    is_bullet_line "· a".toList = true ∧
    "· a".toList ≠ "a".toList := by
  refine ⟨rfl, by decide, by decide⟩

/-- C8 (amended): bullet-list emission.  For every assigned (text, shape)
pair at position `j ≠ 0` with a non-title placeholder and a bullet-list
text, the generator emits exactly one paragraph per non-empty trimmed
line, with `bullet = true`, `level = 0`, and the line's leading marker
stripped by `clean_line`; the glyph pass strips exactly the set
`{•, -, ●, ○, ▶}`, which is the bullet-detection set *minus* `·` — a
leading `·` is left for the later numeric/alphabetic passes, which do not
touch it either. -/
theorem generate_replacement_json_bullet_paragraphs
    (user_slides : List Slide)
    (inv : List (String × List (String × TShape))) (idx j : Nat)
    (tshapes : List (String × TShape))
    (h : idx < user_slides.length)
    (htsh : inv.lookup (slideKey idx) = some tshapes)
    (hj : j < ((generate_replacement_json user_slides inv).getD idx
      dEntry).2.length)
    (hj0 : j ≠ 0)
    (hpt1 : ((tshapes.lookup ((sortKeys tshapes).getD j "")).getD
      dTShape).placeholder_type ≠ some "TITLE")
    (hpt2 : ((tshapes.lookup ((sortKeys tshapes).getD j "")).getD
      dTShape).placeholder_type ≠ some "CENTER_TITLE")
    (hb : 1 < (textLines ((extractTexts (user_slides.getD idx
        dSlide)).getD j [])).length ∨
      (textLines ((extractTexts (user_slides.getD idx dSlide)).getD
        j [])).any is_bullet_line = true) :
    ((generate_replacement_json user_slides inv).getD idx dEntry).2.getD
        j dInstr
      = ((sortKeys tshapes).getD j "",
         { paragraphs :=
             (textLines ((extractTexts (user_slides.getD idx
                 dSlide)).getD j [])).map (fun line =>
               { text := cleanLine line, bold := none, alignment := none,
                 bullet := some true, level := some 0 }) }) ∧
    (∀ (c : Char) (rest : Str),
      (c = '•' ∨ c = '-' ∨ c = '●' ∨ c = '○' ∨ c = '▶') →
      cleanLine (c :: rest) =
        stripAlphaMarker (stripNumMarker (rest.dropWhile pyIsSpace))) ∧
    (∀ rest : Str, cleanLine ('·' :: rest) =
      stripAlphaMarker (stripNumMarker ('·' :: rest))) := by
  have hgen : (generate_replacement_json user_slides inv).getD idx dEntry =
      pageEntry idx (user_slides.getD idx dSlide) inv := by
    simpa [generate_replacement_json] using generateAux_getD inv user_slides 0 idx h
  rw [hgen] at hj ⊢
  refine ⟨?_, ?_, ?_⟩
  · cases he : (extractTexts (user_slides.getD idx dSlide)).isEmpty with
    | true =>
      rw [pageEntry_some_empty _ _ _ _ htsh he] at hj
      simp at hj
    | false =>
      rw [pageEntry_some _ _ _ _ htsh he] at hj ⊢
      have := assignLoop_getD tshapes
        (extractTexts (user_slides.getD idx dSlide)) (sortKeys tshapes) 0 j hj
      simp only [Nat.zero_add] at this
      rw [this]
      rw [mkShapeInstr_bullet j _ _ hj0 hpt1 hpt2 hb]
  · intro c rest hc
    rcases hc with hc | hc | hc | hc | hc <;> subst hc <;>
      simp [cleanLine, stripBulletGlyph]
  · intro rest
    simp [cleanLine, stripBulletGlyph]

/-- Witness for C8 at the concrete two-line bullet text `· a\nb` in the
second shape of the fixture page. -/
theorem generate_replacement_json_bullet_paragraphs_witness :
    ((generate_replacement_json [wSlide] wInv).getD 0 dEntry).2.getD 1 dInstr
      = ((sortKeys wTsh).getD 1 "",
         { paragraphs :=
             (textLines ((extractTexts ([wSlide].getD 0 dSlide)).getD
                 1 [])).map (fun line =>
               { text := cleanLine line, bold := none, alignment := none,
                 bullet := some true, level := some 0 }) }) := by
  have hlen2 : ((generate_replacement_json [wSlide] wInv).getD 0
      dEntry).2.length = 2 := rfl
  exact (generate_replacement_json_bullet_paragraphs [wSlide] wInv 0 1 wTsh
    (by decide) (by decide) (by rw [hlen2]; omega) (by decide)
    (by decide) (by decide)
    (Or.inl (by decide))).1

/-- C9 (counterexample): the marker-stripping step is not idempotent —
one pass over `• • a` removes only the first bullet glyph, and a second
pass strips again: `clean_line("• • a") = "• a"` but
`clean_line("• a") = "a"`. -/
theorem cleanLine_not_idempotent :
    cleanLine "• • a".toList = "• a".toList ∧
    cleanLine (cleanLine "• • a".toList) = "a".toList ∧
    cleanLine (cleanLine "• • a".toList) ≠ cleanLine "• • a".toList := by
  refine ⟨by decide, by decide, by decide⟩

/-- C9 (amended): one stripping pass removes at most one marker of each
kind (glyph, then numeric, then alphabetic), so stripping composed with
itself differs from a single pass on lines whose stripped form still
begins with a marker; stripping *is* a no-op on any line that carries no
leading bullet glyph, numeric marker, or alphabetic marker — in
particular on fully stripped lines. -/
theorem cleanLine_noop_of_no_marker (l : Str)
    (h : hasLeadingMarker l = false) : cleanLine l = l := by
  simp only [hasLeadingMarker, Bool.or_eq_false_iff] at h
  obtain ⟨⟨hg, hn⟩, ha⟩ := h
  have h1 : stripBulletGlyph l = l := by
    cases l with
    | nil => rfl
    | cons c rest =>
      simp only [hasLeadingGlyph] at hg
      simp only [stripBulletGlyph]
      rw [if_neg]
      intro hc
      rcases hc with hc | hc | hc | hc | hc <;> simp [hc] at hg
  have h2 : stripNumMarker l = l := by
    simp only [hasLeadingNumMarker, Bool.and_eq_false_iff] at hn
    simp only [stripNumMarker]
    rcases hn with hn | hn
    · rw [if_pos]
      simpa using hn
    · cases hds : (l.takeWhile Char.isDigit).isEmpty with
      | true => simp
      | false =>
        rw [if_neg (by simp [hds])]
        cases hdrop : l.drop (l.takeWhile Char.isDigit).length with
        | nil => rfl
        | cons p r =>
          rw [hdrop] at hn
          have hp' : ¬(p = '.' ∨ p = ')') := by
            intro hp
            rcases hp with hp | hp <;> simp [hp] at hn
          simp [hp']
  have h3 : stripAlphaMarker l = l := by
    cases l with
    | nil => rfl
    | cons c rest =>
      cases rest with
      | nil => rfl
      | cons p r =>
        simp only [hasLeadingAlphaMarker, Bool.and_eq_false_iff] at ha
        simp only [stripAlphaMarker]
        rw [if_neg]
        rintro ⟨hca, hp⟩
        rcases ha with ha | ha
        · simp [hca] at ha
        · rcases hp with hp | hp <;> simp [hp] at ha
  simp [cleanLine, h1, h2, h3]

/-- Witness for C9 on the marker-free line `hello world`. -/
theorem cleanLine_noop_of_no_marker_witness :
    hasLeadingMarker "hello world".toList = false ∧
    cleanLine "hello world".toList = "hello world".toList :=
  ⟨by decide, cleanLine_noop_of_no_marker _ (by decide)⟩

/-- C7 (counterexample): the normalizer does not clamp geometry — a source
shape whose `left` coerces to `-1` yields a Deck shape with
`left_emu = -1 < 0`. -/
theorem extract_ppt_structure_negative_geometry :
    ((((extract_ppt_structure rawNegDoc).2.getD 0 dPage).shapes.getD 0
        dShape).geometry.left_emu = -1) ∧
    ((((extract_ppt_structure rawNegDoc).2.getD 0 dPage).shapes.getD 0
        dShape).geometry.left_emu < 0) := by
  refine ⟨rfl, ?_⟩
  rw [show (((extract_ppt_structure rawNegDoc).2.getD 0 dPage).shapes.getD 0
      dShape).geometry.left_emu = -1 from rfl]
  decide

theorem safe_int_nonneg (v : Option Int) (h : rawValNonneg v) :
    0 ≤ safe_int v := by
  cases v with
  | none => simp [safe_int]
  | some n => simpa [safe_int, rawValNonneg] using h

theorem extractShapesAux_nonneg (l : List RawShape)
    (hl : ∀ r ∈ l, rawValNonneg r.left ∧ rawValNonneg r.top ∧
      rawValNonneg r.width ∧ rawValNonneg r.height) :
    ∀ (i : Nat), ∀ sh ∈ extractShapesAux i l,
      0 ≤ sh.geometry.left_emu ∧ 0 ≤ sh.geometry.top_emu ∧
      0 ≤ sh.geometry.width_emu ∧ 0 ≤ sh.geometry.height_emu := by
  induction l with
  | nil => intro i sh hsh; simp [extractShapesAux] at hsh
  | cons r rest ih =>
    intro i sh hsh
    simp only [extractShapesAux, List.mem_cons] at hsh
    rcases hsh with hsh | hsh
    · subst hsh
      obtain ⟨h1, h2, h3, h4⟩ := hl r (by simp)
      exact ⟨safe_int_nonneg _ h1, safe_int_nonneg _ h2,
        safe_int_nonneg _ h3, safe_int_nonneg _ h4⟩
    · exact ih (fun r' hr' => hl r' (by simp [hr'])) (i + 1) sh hsh

theorem extractPagesAux_nonneg (meta : Meta) (l : List RawSlide)
    (hl : ∀ rs ∈ l, ∀ r ∈ rs.shapes, rawValNonneg r.left ∧
      rawValNonneg r.top ∧ rawValNonneg r.width ∧ rawValNonneg r.height) :
    ∀ (i : Nat), ∀ p ∈ extractPagesAux meta i l, ∀ sh ∈ p.shapes,
      0 ≤ sh.geometry.left_emu ∧ 0 ≤ sh.geometry.top_emu ∧
      0 ≤ sh.geometry.width_emu ∧ 0 ≤ sh.geometry.height_emu := by
  induction l with
  | nil => intro i p hp; simp [extractPagesAux] at hp
  | cons rs rest ih =>
    intro i p hp
    simp only [extractPagesAux, List.mem_cons] at hp
    rcases hp with hp | hp
    · subst hp
      intro sh hsh
      exact extractShapesAux_nonneg rs.shapes (hl rs (by simp)) 0 sh hsh
    · exact ih (fun rs' hrs' => hl rs' (by simp [hrs'])) (i + 1) p hp

/-- C7 (amended): the normalizer reads geometry defensively —
non-coercible values default to `0` — and passes coercible values through
unchanged, so every shape of the produced Deck has non-negative `left`,
`top`, `width`, `height` whenever every coercible geometry value of the
source document is non-negative (the normalizer itself never clamps a
negative input to zero). -/
theorem extract_ppt_structure_geometry_nonneg (doc : RawDoc)
    (hdoc : ∀ rs ∈ doc.slides, ∀ r ∈ rs.shapes, rawValNonneg r.left ∧
      rawValNonneg r.top ∧ rawValNonneg r.width ∧ rawValNonneg r.height) :
    ∀ p ∈ (extract_ppt_structure doc).2, ∀ sh ∈ p.shapes,
      0 ≤ sh.geometry.left_emu ∧ 0 ≤ sh.geometry.top_emu ∧
      0 ≤ sh.geometry.width_emu ∧ 0 ≤ sh.geometry.height_emu := by
  intro p hp
  exact extractPagesAux_nonneg _ doc.slides hdoc 0 p hp

/-- Witness for C7 on a concrete document with one non-negative shape
(whose `top` does not even coerce and defaults to 0). -/
theorem extract_ppt_structure_geometry_nonneg_witness :
    0 ≤ ((((extract_ppt_structure rawGoodDoc).2.getD 0 dPage).shapes.getD 0
        dShape).geometry.left_emu) ∧
    0 ≤ ((((extract_ppt_structure rawGoodDoc).2.getD 0 dPage).shapes.getD 0
        dShape).geometry.top_emu) ∧
    0 ≤ ((((extract_ppt_structure rawGoodDoc).2.getD 0 dPage).shapes.getD 0
        dShape).geometry.width_emu) ∧
    0 ≤ ((((extract_ppt_structure rawGoodDoc).2.getD 0 dPage).shapes.getD 0
        dShape).geometry.height_emu) :=
  extract_ppt_structure_geometry_nonneg rawGoodDoc (by decide)
    ((extract_ppt_structure rawGoodDoc).2.getD 0 dPage)
    (by rw [show (extract_ppt_structure rawGoodDoc).2 =
          [(extract_ppt_structure rawGoodDoc).2.getD 0 dPage] from rfl]
        exact List.mem_cons_self _ _)
    (((extract_ppt_structure rawGoodDoc).2.getD 0 dPage).shapes.getD 0 dShape)
    (by rw [show ((extract_ppt_structure rawGoodDoc).2.getD 0 dPage).shapes =
          [((extract_ppt_structure rawGoodDoc).2.getD 0
              dPage).shapes.getD 0 dShape] from rfl]
        exact List.mem_cons_self _ _)

theorem list_find?_congr {α : Type} (p q : α → Bool) :
    ∀ (l : List α), (∀ x ∈ l, p x = q x) → l.find? p = l.find? q := by
  intro l
  induction l with
  | nil => intro _; rfl
  | cons a tl ih =>
    intro h
    have ha := h a (by simp)
    simp only [List.find?]
    rw [ha]
    cases q a
    · exact ih (fun x hx => h x (by simp [hx]))
    · rfl

theorem list_exists_max {α : Type} (f : α → ℚ) :
    ∀ (l : List α), l ≠ [] → ∃ x ∈ l, ∀ t ∈ l, f t ≤ f x := by
  intro l
  induction l with
  | nil => intro h; exact absurd rfl h
  | cons a tl ih =>
    intro _
    cases tl with
    | nil =>
      refine ⟨a, by simp, ?_⟩
      intro t ht
      simp at ht
      subst ht
      exact le_refl _
    | cons b tl2 =>
      obtain ⟨x, hx, hmax⟩ := ih (by simp)
      rcases le_total (f a) (f x) with hle | hle
      · refine ⟨x, by simp [hx], ?_⟩
        intro t ht
        rcases List.mem_cons.mp ht with h | h
        · subst h; exact hle
        · exact hmax t h
      · refine ⟨a, by simp, ?_⟩
        intro t ht
        rcases List.mem_cons.mp ht with h | h
        · subst h; exact le_refl _
        · exact le_trans (hmax t h) hle

theorem shapeScore_eq_spec (H : ℚ) (s : Shape) :
    shapeScore H s = specShapeScore H s := by
  simp only [shapeScore, specShapeScore]
  split_ifs <;> ring

theorem titleFoldl_eq (H : ℚ) :
    ∀ (l : List Shape) (c0 : Option Str) (v : ℚ),
    (l.foldl (titleStep H) (c0, v)).1 =
      (match (l.filter eligibleShape).find? (fun x =>
          decide (v < shapeScore H x) &&
          (l.filter eligibleShape).all (fun t =>
            decide (shapeScore H t ≤ shapeScore H x))) with
       | none => c0
       | some x => some (pyStrip (pyOrEmpty x.text))) := by
  intro l
  induction l with
  | nil => intro c0 v; simp
  | cons s tl ih =>
    intro c0 v
    rw [List.foldl_cons]
    by_cases hel : 0 < (pyStrip (pyOrEmpty s.text)).length ∧
        (pyStrip (pyOrEmpty s.text)).length ≤ 60
    · have helB : eligibleShape s = true := by
        simp [eligibleShape, hel.1, hel.2]
      have hfil : (s :: tl).filter eligibleShape =
          s :: tl.filter eligibleShape := by
        simp [List.filter_cons, helB]
      by_cases hgt : v < shapeScore H s
      · have hstep : titleStep H (c0, v) s =
            (some (pyStrip (pyOrEmpty s.text)), shapeScore H s) := by
          simp [titleStep, hgt, hel.1, hel.2]
        rw [hstep, ih, hfil]
        by_cases hall : ∀ t ∈ tl.filter eligibleShape,
            shapeScore H t ≤ shapeScore H s
        · have hps : (decide (v < shapeScore H s) &&
              (s :: tl.filter eligibleShape).all (fun t =>
                decide (shapeScore H t ≤ shapeScore H s))) = true := by
            simp only [Bool.and_eq_true, decide_eq_true_eq,
              List.all_cons, List.all_eq_true]
            exact ⟨hgt, by simp, fun t ht => by simp [hall t ht]⟩
          have hrw : (s :: tl.filter eligibleShape).find? (fun x =>
              decide (v < shapeScore H x) &&
              (s :: tl.filter eligibleShape).all (fun t =>
                decide (shapeScore H t ≤ shapeScore H x))) = some s :=
            List.find?_cons_of_pos _ hps
          rw [hrw]
          have hnone : (tl.filter eligibleShape).find? (fun x =>
              decide (shapeScore H s < shapeScore H x) &&
              (tl.filter eligibleShape).all (fun t =>
                decide (shapeScore H t ≤ shapeScore H x))) = none := by
            apply List.find?_eq_none.mpr
            intro x hx
            simp only [Bool.and_eq_true, decide_eq_true_eq, not_and]
            intro hcon
            exact absurd (hall x hx) (not_le.mpr hcon)
          rw [hnone]
        · push_neg at hall
          obtain ⟨t0, ht0, ht0s⟩ := hall
          have hpneg : ¬((decide (v < shapeScore H s) &&
              (s :: tl.filter eligibleShape).all (fun t =>
                decide (shapeScore H t ≤ shapeScore H s))) = true) := by
            simp only [Bool.and_eq_true, decide_eq_true_eq,
              List.all_cons, List.all_eq_true, not_and]
            intro _ _ hcall
            have := hcall t0 ht0
            simp only [decide_eq_true_eq] at this
            exact absurd this (not_le.mpr ht0s)
          have hrw : (s :: tl.filter eligibleShape).find? (fun x =>
              decide (v < shapeScore H x) &&
              (s :: tl.filter eligibleShape).all (fun t =>
                decide (shapeScore H t ≤ shapeScore H x))) =
            (tl.filter eligibleShape).find? (fun x =>
              decide (v < shapeScore H x) &&
              (s :: tl.filter eligibleShape).all (fun t =>
                decide (shapeScore H t ≤ shapeScore H x))) :=
            List.find?_cons_of_neg _ hpneg
          rw [hrw]
          have hcongr : (tl.filter eligibleShape).find? (fun x =>
              decide (v < shapeScore H x) &&
              (s :: tl.filter eligibleShape).all (fun t =>
                decide (shapeScore H t ≤ shapeScore H x))) =
            (tl.filter eligibleShape).find? (fun x =>
              decide (shapeScore H s < shapeScore H x) &&
              (tl.filter eligibleShape).all (fun t =>
                decide (shapeScore H t ≤ shapeScore H x))) := by
            apply list_find?_congr
            intro x hx
            by_cases hallx : ∀ t ∈ tl.filter eligibleShape,
                shapeScore H t ≤ shapeScore H x
            · have hsx : shapeScore H s < shapeScore H x :=
                lt_of_lt_of_le ht0s (hallx t0 ht0)
              have hvx : v < shapeScore H x := lt_trans hgt hsx
              simp only [List.all_cons, Bool.and_eq_true,
                decide_eq_true_eq, List.all_eq_true]
              simp [hvx, hsx, le_of_lt hsx, fun t ht => hallx t ht]
            · push_neg at hallx
              obtain ⟨t1, ht1, ht1x⟩ := hallx
              have h1 : ((tl.filter eligibleShape).all (fun t =>
                  decide (shapeScore H t ≤ shapeScore H x))) = false := by
                simp only [List.all_eq_false]
                exact ⟨t1, ht1, by simp [not_le.mpr ht1x]⟩
              simp [h1]
          rw [hcongr]
          cases hfind : (tl.filter eligibleShape).find? (fun x =>
              decide (shapeScore H s < shapeScore H x) &&
              (tl.filter eligibleShape).all (fun t =>
                decide (shapeScore H t ≤ shapeScore H x))) with
          | none =>
            exfalso
            obtain ⟨xm, hxm, hxmax⟩ :=
              list_exists_max (shapeScore H) (tl.filter eligibleShape)
                (by intro hnil; rw [hnil] at ht0; simp at ht0)
            have := List.find?_eq_none.mp hfind xm hxm
            simp only [Bool.and_eq_true, decide_eq_true_eq, not_and,
              List.all_eq_true] at this
            exact this (lt_of_lt_of_le ht0s (hxmax t0 ht0))
              (fun t ht => by simp [hxmax t ht])
          | some y => rfl
      · have hstep : titleStep H (c0, v) s = (c0, v) := by
          simp only [titleStep]
          rw [if_neg]
          rintro ⟨hcon, -, -⟩
          exact hgt hcon
        rw [hstep, ih, hfil]
        have hpneg : ¬((decide (v < shapeScore H s) &&
            (s :: tl.filter eligibleShape).all (fun t =>
              decide (shapeScore H t ≤ shapeScore H s))) = true) := by
          simp only [Bool.and_eq_true, decide_eq_true_eq, not_and]
          intro hcon
          exact absurd hcon hgt
        have hrw : (s :: tl.filter eligibleShape).find? (fun x =>
            decide (v < shapeScore H x) &&
            (s :: tl.filter eligibleShape).all (fun t =>
              decide (shapeScore H t ≤ shapeScore H x))) =
          (tl.filter eligibleShape).find? (fun x =>
            decide (v < shapeScore H x) &&
            (s :: tl.filter eligibleShape).all (fun t =>
              decide (shapeScore H t ≤ shapeScore H x))) :=
          List.find?_cons_of_neg _ hpneg
        rw [hrw]
        have hcongr : (tl.filter eligibleShape).find? (fun x =>
            decide (v < shapeScore H x) &&
            (tl.filter eligibleShape).all (fun t =>
              decide (shapeScore H t ≤ shapeScore H x))) =
          (tl.filter eligibleShape).find? (fun x =>
            decide (v < shapeScore H x) &&
            (s :: tl.filter eligibleShape).all (fun t =>
              decide (shapeScore H t ≤ shapeScore H x))) := by
          apply list_find?_congr
          intro x hx
          by_cases hvx : v < shapeScore H x
          · have hsx : shapeScore H s ≤ shapeScore H x :=
              le_trans (not_lt.mp hgt) (le_of_lt hvx)
            simp only [List.all_cons, Bool.and_eq_true,
              decide_eq_true_eq, List.all_eq_true]
            simp [hvx, hsx]
          · simp [hvx]
        rw [← hcongr]
    · have helB : eligibleShape s = false := by
        simp only [eligibleShape, Bool.and_eq_false_iff,
          decide_eq_false_iff_not]
        omega
      have hfil : (s :: tl).filter eligibleShape =
          tl.filter eligibleShape := by
        simp [List.filter_cons, helB]
      have hstep : titleStep H (c0, v) s = (c0, v) := by
        simp only [titleStep]
        rw [if_neg]
        rintro ⟨-, hb, hc⟩
        exact hel ⟨hb, hc⟩
      rw [hstep, ih, hfil]

/-- C5: title-candidate selection.  On every page whose shapes respect the
data model's non-negative geometry, the classifier's fold (initialised at
score `-1.0` and updating on strictly greater scores) picks exactly the
spec's candidate: among text shapes with trimmed text length in `(0, 60]`,
the shape with the highest score — area `width × height`, multiplied by
`1.3` when the vertical centre `(top + height/2)/deck_height` lies above
the `0.35` line, i.e. the ratio is below `0.35` — with ties keeping the
first shape in shape order. -/
theorem titleCandidate_eq_spec (H : ℚ) (text_shapes : List Shape)
    (hn : ∀ s ∈ text_shapes, 0 ≤ s.geometry.width_emu ∧
      0 ≤ s.geometry.height_emu) :
    titleCandidate H text_shapes = specTitleCandidate H text_shapes := by
  have hscore : ∀ s ∈ text_shapes, 0 ≤ shapeScore H s := by
    intro s hs
    obtain ⟨hw, hh⟩ := hn s hs
    have hw' : (0 : ℚ) ≤ (s.geometry.width_emu : ℚ) := by exact_mod_cast hw
    have hh' : (0 : ℚ) ≤ (s.geometry.height_emu : ℚ) := by exact_mod_cast hh
    simp only [shapeScore]
    split_ifs
    · exact mul_nonneg (mul_nonneg hw' hh') (by norm_num)
    · exact mul_nonneg hw' hh'
  simp only [titleCandidate, specTitleCandidate]
  rw [titleFoldl_eq]
  have hcongr : (text_shapes.filter eligibleShape).find? (fun x =>
      decide ((-1 : ℚ) < shapeScore H x) &&
      (text_shapes.filter eligibleShape).all (fun t =>
        decide (shapeScore H t ≤ shapeScore H x))) =
    (text_shapes.filter eligibleShape).find? (fun x =>
      (text_shapes.filter eligibleShape).all (fun t =>
        decide (specShapeScore H t ≤ specShapeScore H x))) := by
    apply list_find?_congr
    intro x hx
    have hx' : x ∈ text_shapes := (List.mem_filter.mp hx).1
    have h1 : (-1 : ℚ) < shapeScore H x :=
      lt_of_lt_of_le (by norm_num) (hscore x hx')
    have hd : decide ((-1 : ℚ) < shapeScore H x) = true := by
      simpa using h1
    rw [hd, Bool.true_and]
    simp only [shapeScore_eq_spec]
  rw [hcongr]
  cases (text_shapes.filter eligibleShape).find? (fun x =>
      (text_shapes.filter eligibleShape).all (fun t =>
        decide (specShapeScore H t ≤ specShapeScore H x))) with
  | none => rfl
  | some x => rfl

/-- Witness for C5 on a concrete two-shape page with non-negative
geometry. -/
theorem titleCandidate_eq_spec_witness :
    titleCandidate 6858000 [mkTextShape "Heading", mkTextShape "Sub"] =
      specTitleCandidate 6858000 [mkTextShape "Heading", mkTextShape "Sub"] :=
  titleCandidate_eq_spec 6858000 _ (by decide)
